import Mathlib

/-!
Verification of `server/scripts/pdf_processor.py`.

The script is a sequential pipeline: parse a PDF, extract embedded text per
page, and — when the result is empty or shorter than 50 words — fall back to
rasterization plus OCR.  We shallowly embed the script: strings are `List Char`,
Python's `str.strip` / `str.split` are modelled explicitly, and the behaviour
of the three third-party libraries (PDF parser, rasterizer, OCR engine) on the
given bytes is an explicit environment value: each library call either raises
(an `Except.error` carrying the stringified exception) or returns its data.
-/

namespace PdfProc

/-- Strings of the embedded program: Python `str` as a list of characters. -/
abbrev Str := List Char

/-- Whitespace test used by Python's `str.strip()` and `str.split()`
(ASCII whitespace characters). -/
def isSpaceChar (c : Char) : Bool :=
  c = ' ' || c = '\t' || c = '\n' || c = '\r' || c = '\x0b' || c = '\x0c'

/-- Python `str.lstrip()`: drop leading whitespace. -/
def lstrip (s : Str) : Str := s.dropWhile isSpaceChar

/-- Python `str.rstrip()`: drop trailing whitespace. -/
def rstrip (s : Str) : Str := (s.reverse.dropWhile isSpaceChar).reverse

/-- Python `str.strip()`: drop leading and trailing whitespace. -/
def pystrip (s : Str) : Str := rstrip (lstrip s)

/-- Helper for `words`: scan the string keeping the (reversed) current word
in the accumulator, emitting it when whitespace or the end is reached. -/
def wordsAux : Str → Str → List Str
  | [], acc => if acc = [] then [] else [acc.reverse]
  | c :: cs, acc =>
    if isSpaceChar c then
      if acc = [] then wordsAux cs [] else acc.reverse :: wordsAux cs []
    else
      wordsAux cs (c :: acc)

/-- Python `str.split()` with no argument: the maximal whitespace-free
non-empty chunks of the string. -/
def words (s : Str) : List Str := wordsAux s []

/-- Per-page direct extraction / per-image OCR outcome: the library call for
that page or image either raises (`error` with the message) or returns text. -/
abbrev PieceResult := Except Str Str

/-- Text accumulation loop shared by both stages of the script
(`pdf_processor.py` lines 27-35 for pages, 43-50 for OCR images): a piece
whose call raised is caught and contributes nothing, a piece whose text is
whitespace-only is skipped, and every other piece appends its text plus a
newline to the running total. -/
def collectText : List PieceResult → Str
  | [] => []
  | p :: ps =>
    (match p with
     | .error _ => []
     | .ok t => if pystrip t = [] then [] else t ++ ['\n']) ++ collectText ps

/-- The JSON result object built by `process_pdf`: `ok text pageCount` is
`{"success": true, "text": ..., "pageCount": ...}` and `err msg pageCount` is
`{"success": false, "error": ..., "pageCount": ...}`. -/
inductive PdfResult where
  | ok (text : Str) (pageCount : Nat)
  | err (msg : Str) (pageCount : Nat)
deriving DecidableEq, Repr

/-- One run of `process_pdf`: the returned result object, plus whether the OCR
fallback stage (the `try` block around `convert_from_bytes`, lines 40-58) was
entered. -/
structure Run where
  result : PdfResult
  ocrInvoked : Bool
deriving DecidableEq, Repr

deriving instance DecidableEq for Except

/-- Behaviour of the third-party libraries on the PDF bytes of one invocation:
`parse` is `PdfReader` (a parse error, or the per-page `extract_text` outcomes
in document order); `images` is `convert_from_bytes` (a rasterization error, or
the per-image `pytesseract.image_to_string` outcomes). -/
structure PdfEnv where
  parse : Except Str (List PieceResult)
  images : Except Str (List PieceResult)
deriving DecidableEq

/-- Message of the exception raised at line 58 of the script. -/
def bothFailedMsg : Str := "Both text extraction and OCR failed".toList

/-- The function `process_pdf` (lines 18-72): parse the PDF (parse failure is
caught at line 66 and reported with page count 0); accumulate per-page text;
if the total is whitespace-only or shorter than 50 words, run OCR — when
rasterization raises, fail with `bothFailedMsg` if no direct text exists and
otherwise keep the direct text; when OCR completes, its accumulated text
replaces the direct text only if non-whitespace; finally return the kept text,
stripped, with the parser's page count. -/
def process_pdf (env : PdfEnv) : Run :=
  match env.parse with
  | .error e => ⟨.err e 0, false⟩
  | .ok pages =>
    let page_count := pages.length
    let text := collectText pages
    if pystrip text = [] ∨ (words text).length < 50 then
      match env.images with
      | .error _ =>
        if pystrip text = [] then ⟨.err bothFailedMsg 0, true⟩
        else ⟨.ok (pystrip text) page_count, true⟩
      | .ok imgs =>
        let ocr_text := collectText imgs
        if pystrip ocr_text = [] then ⟨.ok (pystrip text) page_count, true⟩
        else ⟨.ok (pystrip ocr_text) page_count, true⟩
    else ⟨.ok (pystrip text) page_count, false⟩

/-- What the `__main__` block writes to standard output: the fixed
"No input provided" object, the serialized result of `process_pdf`, or the
"Processing failed: ..." object of the entry-point exception handler. -/
inductive MainOut where
  | noInput
  | processed (r : PdfResult)
  | procFailed (msg : Str)
deriving DecidableEq, Repr

/-- Observable outcome of one script invocation: what was printed to standard
output, the process exit code, and whether `process_pdf` was called. -/
structure MainResult where
  out : MainOut
  exitCode : Nat
  extractorInvoked : Bool
deriving DecidableEq, Repr

/-- The `__main__` block (lines 74-91).  `args` are the command-line arguments
after the script name (so `len(sys.argv) != 2` is `args.length ≠ 1`);
`decoded` is the outcome of `base64.b64decode(sys.argv[1])`, giving on success
the library behaviour on the decoded bytes.  A decode failure is caught at
line 86 and reported with the `Processing failed: ` message; the script then
falls off the end, so the exit code is 0. -/
def main_entry (args : List Str) (decoded : Except Str PdfEnv) : MainResult :=
  if args.length ≠ 1 then ⟨.noInput, 1, false⟩
  else
    match decoded with
    | .error e => ⟨.procFailed ("Processing failed: ".toList ++ e), 0, false⟩
    | .ok env => ⟨.processed (process_pdf env).result, 0, true⟩

/-- Texts of the pages that actually contribute to the accumulated total:
extraction succeeded and the text is not whitespace-only. -/
def keptTexts (pages : List PieceResult) : List Str :=
  pages.filterMap fun p =>
    match p with
    | .error _ => none
    | .ok t => if pystrip t = [] then none else some t

/-- Modelled from the spec: "concatenating all per-page text with newline
separators" — the pieces joined with a single newline between consecutive
pieces. -/
def joinWithNewlines : List Str → Str
  | [] => []
  | [t] => t
  | t :: t' :: ts => t ++ '\n' :: joinWithNewlines (t' :: ts)

/-- Per-page and per-image library failures are caught by the script; this
replaces a raising piece by one returning empty text. -/
def scrubPiece : PieceResult → PieceResult
  | .error _ => .ok []
  | .ok t => .ok t

/-- A piece is blank when its library call raised (it contributes nothing) or
its text is whitespace-only (it is skipped by the accumulation loop). -/
def pieceBlank : PieceResult → Bool
  | .error _ => true
  | .ok t => pystrip t = []

/-- A page whose embedded text is fifty repetitions of the word "a". -/
def manyWords : Str := (List.replicate 50 ['a', ' ']).flatten

/-- Pages of a three-page document whose middle page extracts to the
whitespace-only string " ". -/
def cePages : List PieceResult := [.ok "a".toList, .ok " ".toList, .ok "b".toList]

lemma dropWhile_append_of_all {α : Type} {p : α → Bool} :
    ∀ {l₁ l₂ : List α}, l₁.all p → (l₁ ++ l₂).dropWhile p = l₂.dropWhile p := by
  intro l₁ l₂ h
  induction l₁ with
  | nil => rfl
  | cons a l ih =>
    simp only [List.all_cons, Bool.and_eq_true] at h
    simp [List.dropWhile_cons, h.1, ih h.2]

lemma lstrip_nil_of_all {s : Str} (h : s.all isSpaceChar) : lstrip s = [] := by
  induction s with
  | nil => rfl
  | cons a l ih =>
    simp only [List.all_cons, Bool.and_eq_true] at h
    simp [lstrip, List.dropWhile_cons, h.1]
    simpa [lstrip] using ih h.2

lemma rstrip_append_of_all {s ws : Str} (h : ws.all isSpaceChar) :
    rstrip (s ++ ws) = rstrip s := by
  have hrev : ws.reverse.all isSpaceChar := by simpa using h
  simp [rstrip, List.reverse_append, dropWhile_append_of_all hrev]

lemma pystrip_cons_space {c : Char} {s : Str} (h : isSpaceChar c) :
    pystrip (c :: s) = pystrip s := by
  simp [pystrip, lstrip, List.dropWhile_cons, h]

lemma pystrip_nil_of_all {s : Str} (h : s.all isSpaceChar) : pystrip s = [] := by
  rw [pystrip, lstrip_nil_of_all h]; rfl

lemma pystrip_append_of_all {s ws : Str} (h : ws.all isSpaceChar) :
    pystrip (s ++ ws) = pystrip s := by
  induction s with
  | nil =>
    simp only [List.nil_append]
    rw [pystrip_nil_of_all h]; rfl
  | cons c s ih =>
    by_cases hc : isSpaceChar c
    · rw [List.cons_append, pystrip_cons_space hc, ih, pystrip_cons_space hc]
    · have h1 : lstrip (c :: (s ++ ws)) = c :: (s ++ ws) := by
        simp [lstrip, List.dropWhile_cons, hc]
      have h2 : lstrip (c :: s) = c :: s := by
        simp [lstrip, List.dropWhile_cons, hc]
      rw [List.cons_append, pystrip, h1, pystrip, h2,
        show c :: (s ++ ws) = (c :: s) ++ ws from rfl, rstrip_append_of_all h]

lemma wordsAux_space_nil {ws : Str} (h : ws.all isSpaceChar) :
    wordsAux ws [] = [] := by
  induction ws with
  | nil => rfl
  | cons c l ih =>
    simp only [List.all_cons, Bool.and_eq_true] at h
    simp [wordsAux, h.1, ih h.2]

lemma wordsAux_space_acc {ws acc : Str} (h : ws.all isSpaceChar)
    (ha : acc ≠ []) : wordsAux ws acc = [acc.reverse] := by
  cases ws with
  | nil => simp [wordsAux, ha]
  | cons c l =>
    simp only [List.all_cons, Bool.and_eq_true] at h
    simp [wordsAux, h.1, ha, wordsAux_space_nil h.2]

lemma wordsAux_append_space {ws : Str} (h : ws.all isSpaceChar) :
    ∀ (s acc : Str), wordsAux (s ++ ws) acc = wordsAux s acc := by
  intro s
  induction s with
  | nil =>
    intro acc
    by_cases ha : acc = []
    · simp [ha, wordsAux, wordsAux_space_nil h]
    · simp [wordsAux, ha, wordsAux_space_acc h ha]
  | cons c s ih =>
    intro acc
    by_cases hc : isSpaceChar c
    · by_cases ha : acc = [] <;> simp [wordsAux, hc, ha, ih]
    · simp [wordsAux, hc, ih]

lemma words_cons_space {c : Char} {s : Str} (h : isSpaceChar c) :
    words (c :: s) = words s := by
  simp [words, wordsAux, h]

lemma words_lstrip (s : Str) : words (lstrip s) = words s := by
  induction s with
  | nil => rfl
  | cons c s ih =>
    by_cases hc : isSpaceChar c
    · rw [words_cons_space hc, ← ih]
      simp [lstrip, List.dropWhile_cons, hc]
    · simp [lstrip, List.dropWhile_cons, hc]

lemma exists_rstrip_decomp (t : Str) :
    ∃ ws : Str, t = rstrip t ++ ws ∧ ws.all isSpaceChar := by
  refine ⟨(t.reverse.takeWhile isSpaceChar).reverse, ?_, ?_⟩
  · rw [rstrip, ← List.reverse_append, List.takeWhile_append_dropWhile,
      List.reverse_reverse]
  · rw [List.all_reverse]
    exact List.all_eq_true.2 fun x hx => List.mem_takeWhile_imp hx

lemma words_pystrip (s : Str) : words (pystrip s) = words s := by
  obtain ⟨ws, hdecomp, hws⟩ := exists_rstrip_decomp (lstrip s)
  calc words (pystrip s) = wordsAux (rstrip (lstrip s) ++ ws) [] := by
        rw [pystrip, words, wordsAux_append_space hws]
    _ = words (lstrip s) := by rw [← hdecomp]; rfl
    _ = words s := words_lstrip s

lemma words_nil_of_pystrip_nil {s : Str} (h : pystrip s = []) :
    words s = [] := by
  rw [← words_pystrip, h]; rfl

lemma collectText_nil_of_kept_nil :
    ∀ {ps : List PieceResult}, keptTexts ps = [] → collectText ps = [] := by
  intro ps h
  induction ps with
  | nil => rfl
  | cons p ps ih =>
    cases p with
    | error e =>
      simp only [keptTexts, List.filterMap_cons] at h
      simpa [collectText] using ih (by simpa [keptTexts] using h)
    | ok t =>
      by_cases ht : pystrip t = []
      · simp only [keptTexts, List.filterMap_cons, ht, if_true] at h
        simpa [collectText, ht] using ih (by simpa [keptTexts] using h)
      · simp [keptTexts, List.filterMap_cons, ht] at h

lemma collectText_eq_join :
    ∀ {ps : List PieceResult}, keptTexts ps ≠ [] →
      collectText ps = joinWithNewlines (keptTexts ps) ++ ['\n'] := by
  intro ps h
  induction ps with
  | nil => exact absurd rfl h
  | cons p ps ih =>
    cases p with
    | error e =>
      have hk : keptTexts (Except.error e :: ps) = keptTexts ps := by
        simp [keptTexts, List.filterMap_cons]
      rw [hk] at h ⊢
      simpa [collectText] using ih h
    | ok t =>
      by_cases ht : pystrip t = []
      · have hk : keptTexts (Except.ok t :: ps) = keptTexts ps := by
          simp [keptTexts, List.filterMap_cons, ht]
        rw [hk] at h ⊢
        simpa [collectText, ht] using ih h
      · have hk : keptTexts (Except.ok t :: ps) = t :: keptTexts ps := by
          simp [keptTexts, List.filterMap_cons, ht]
        rw [hk]
        by_cases hrest : keptTexts ps = []
        · rw [hrest]
          simp [collectText, ht, joinWithNewlines,
            collectText_nil_of_kept_nil hrest]
        · obtain ⟨k, ks, hks⟩ : ∃ k ks, keptTexts ps = k :: ks := by
            cases hkl : keptTexts ps with
            | nil => exact absurd hkl hrest
            | cons k ks => exact ⟨k, ks, rfl⟩
          simp only [collectText, ht, if_false, ih hrest, hks,
            joinWithNewlines]
          simp

lemma collectText_scrub (l : List PieceResult) :
    collectText (l.map scrubPiece) = collectText l := by
  induction l with
  | nil => rfl
  | cons p ps ih =>
    cases p with
    | error e => simpa [collectText, scrubPiece, pystrip] using ih
    | ok t => simp [collectText, scrubPiece, ih]

lemma collectText_nil_of_blank :
    ∀ {l : List PieceResult}, l.all pieceBlank → collectText l = [] := by
  intro l h
  induction l with
  | nil => rfl
  | cons p ps ih =>
    simp only [List.all_cons, Bool.and_eq_true] at h
    cases p with
    | error e => simpa [collectText] using ih h.2
    | ok t =>
      have ht : pystrip t = [] := of_decide_eq_true h.1
      simpa [collectText, ht] using ih h.2

lemma pystrip_nil : pystrip ([] : Str) = [] := rfl

lemma ppdf_no_ocr (pages : List PieceResult)
    (images : Except Str (List PieceResult))
    (h : ¬(pystrip (collectText pages) = []
      ∨ (words (collectText pages)).length < 50)) :
    process_pdf ⟨.ok pages, images⟩
      = ⟨.ok (pystrip (collectText pages)) pages.length, false⟩ := by
  simp [process_pdf, h]

lemma ppdf_ocr_raise_empty (pages : List PieceResult) (m : Str)
    (h : pystrip (collectText pages) = []) :
    process_pdf ⟨.ok pages, .error m⟩ = ⟨.err bothFailedMsg 0, true⟩ := by
  simp [process_pdf, h]

lemma ppdf_ocr_raise_kept (pages : List PieceResult) (m : Str)
    (h1 : pystrip (collectText pages) ≠ [])
    (h2 : (words (collectText pages)).length < 50) :
    process_pdf ⟨.ok pages, .error m⟩
      = ⟨.ok (pystrip (collectText pages)) pages.length, true⟩ := by
  simp [process_pdf, h1, h2]

lemma ppdf_ocr_run (pages imgs : List PieceResult)
    (h : pystrip (collectText pages) = []
      ∨ (words (collectText pages)).length < 50) :
    process_pdf ⟨.ok pages, .ok imgs⟩
      = ⟨.ok (pystrip (if pystrip (collectText imgs) = []
          then collectText pages else collectText imgs)) pages.length,
        true⟩ := by
  rcases h with h | h <;> by_cases h2 : pystrip (collectText imgs) = [] <;>
    simp [process_pdf, h, h2]

/-- C1: for a PDF that parses, the OCR fallback is attempted exactly when the
trimmed direct-extraction total is empty or its whitespace-delimited word
count is below 50; with 50 or more words, OCR is never invoked and the result
is success with the trimmed direct-extraction text and the parsed page
count. -/
theorem ocr_fallback_trigger (pages : List PieceResult)
    (images : Except Str (List PieceResult)) :
    ((process_pdf ⟨.ok pages, images⟩).ocrInvoked = true ↔
      (pystrip (collectText pages) = [] ∨
        (words (pystrip (collectText pages))).length < 50))
    ∧ (50 ≤ (words (pystrip (collectText pages))).length →
        (process_pdf ⟨.ok pages, images⟩).ocrInvoked = false ∧
        (process_pdf ⟨.ok pages, images⟩).result
          = .ok (pystrip (collectText pages)) pages.length) := by
  have hw : (words (pystrip (collectText pages))).length
      = (words (collectText pages)).length := by rw [words_pystrip]
  by_cases hcond : pystrip (collectText pages) = []
      ∨ (words (collectText pages)).length < 50
  · have hocr : (process_pdf ⟨.ok pages, images⟩).ocrInvoked = true := by
      cases images with
      | error m =>
        by_cases h2 : pystrip (collectText pages) = []
        · rw [ppdf_ocr_raise_empty pages m h2]
        · rcases hcond with h | h
          · exact absurd h h2
          · rw [ppdf_ocr_raise_kept pages m h2 h]
      | ok imgs => rw [ppdf_ocr_run pages imgs hcond]
    refine ⟨⟨fun _ => ?_, fun _ => hocr⟩, fun hge => ?_⟩
    · rcases hcond with h | h
      · exact Or.inl h
      · exact Or.inr (by omega)
    · exfalso
      rcases hcond with h | h
      · rw [h] at hge
        exact absurd hge (by decide)
      · omega
  · rw [ppdf_no_ocr pages images hcond]
    push_neg at hcond
    refine ⟨⟨fun hx => Bool.noConfusion hx, fun hx => ?_⟩,
      fun _ => ⟨rfl, rfl⟩⟩
    exfalso
    rcases hx with h | h
    · exact hcond.1 h
    · rw [hw] at h
      omega

/-- Witness for C1 at a one-page PDF holding fifty words. -/
theorem ocr_fallback_trigger_witness :
    (process_pdf ⟨.ok [.ok manyWords], .error []⟩).ocrInvoked = false ∧
    (process_pdf ⟨.ok [.ok manyWords], .error []⟩).result
      = .ok (pystrip (collectText [.ok manyWords])) 1 :=
  (ocr_fallback_trigger [.ok manyWords] (.error [])).2 (by decide)

/-- C2: when the OCR stage runs and completes without raising, the OCR
accumulation replaces the direct-extraction text exactly when its trimmed
value is non-empty, and the success text is the trimmed value of whichever
text was kept. -/
theorem ocr_replacement_policy (pages imgs : List PieceResult)
    (h : (process_pdf ⟨.ok pages, .ok imgs⟩).ocrInvoked = true) :
    (pystrip (collectText imgs) ≠ [] →
      (process_pdf ⟨.ok pages, .ok imgs⟩).result
        = .ok (pystrip (collectText imgs)) pages.length)
    ∧ (pystrip (collectText imgs) = [] →
      (process_pdf ⟨.ok pages, .ok imgs⟩).result
        = .ok (pystrip (collectText pages)) pages.length) := by
  by_cases hcond : pystrip (collectText pages) = []
      ∨ (words (collectText pages)).length < 50
  · rw [ppdf_ocr_run pages imgs hcond]
    constructor
    · intro hne
      simp [hne]
    · intro heq
      simp [heq]
  · rw [ppdf_no_ocr pages (.ok imgs) hcond] at h
    exact Bool.noConfusion h

/-- Witness for C2: a one-word page, OCR yielding non-empty text. -/
theorem ocr_replacement_policy_witness :
    (process_pdf ⟨.ok [.ok "hi".toList], .ok [.ok "ocr text".toList]⟩).result
      = .ok "ocr text".toList 1 :=
  (ocr_replacement_policy [.ok "hi".toList] [.ok "ocr text".toList]
    (by decide)).1 (by decide)

/-- C3: when rasterization raises, the run fails with the composite message
and page count 0 if no direct-extraction text exists, and otherwise succeeds
with the trimmed direct-extraction text. -/
theorem ocr_raise_handling (pages : List PieceResult) (m : Str) :
    (pystrip (collectText pages) = [] →
      (process_pdf ⟨.ok pages, .error m⟩).result = .err bothFailedMsg 0)
    ∧ (pystrip (collectText pages) ≠ [] →
      (words (collectText pages)).length < 50 →
      (process_pdf ⟨.ok pages, .error m⟩).result
        = .ok (pystrip (collectText pages)) pages.length) := by
  constructor
  · intro h0
    rw [ppdf_ocr_raise_empty pages m h0]
  · intro hne hlt
    rw [ppdf_ocr_raise_kept pages m hne hlt]

/-- Witness for C3 at a PDF with no extractable text and failing OCR. -/
theorem ocr_raise_handling_witness :
    (process_pdf ⟨.ok [], .error "boom".toList⟩).result = .err bothFailedMsg 0 :=
  (ocr_raise_handling [] "boom".toList).1 (by decide)

/-- C4 (counterexample): on a three-page PDF extracting "a", " ", "b", the
program's direct-extraction total (and the success text) is "a\nb", while
joining all per-page texts with newline separators and trimming yields
"a\n \nb" — the whitespace-only page is dropped, not kept as a separator-
delimited segment. -/
theorem direct_concat_spec_counterexample :
    pystrip (collectText cePages)
      ≠ pystrip (joinWithNewlines ["a".toList, " ".toList, "b".toList])
    ∧ (process_pdf ⟨.ok cePages, .ok []⟩).result = .ok "a\nb".toList 3
    ∧ pystrip (joinWithNewlines ["a".toList, " ".toList, "b".toList])
      = "a\n \nb".toList := by decide

/-- C4 (amended): the direct-extraction total is computed by concatenating,
in document order, the per-page texts of exactly those pages whose extraction
succeeded with non-whitespace text, with newline separators, and trimming;
failed or whitespace-only pages contribute nothing. -/
theorem direct_concat_amended (pages : List PieceResult) :
    pystrip (collectText pages)
      = pystrip (joinWithNewlines (keptTexts pages)) := by
  by_cases h : keptTexts pages = []
  · rw [collectText_nil_of_kept_nil h, h]
    rfl
  · rw [collectText_eq_join h, pystrip_append_of_all (by decide)]

/-- C5: every success result carries the page count of the stage-1 parse,
whatever the OCR stage did. -/
theorem pageCount_from_parse (pages : List PieceResult)
    (images : Except Str (List PieceResult)) (t : Str) (n : Nat)
    (h : (process_pdf ⟨.ok pages, images⟩).result = .ok t n) :
    n = pages.length := by
  by_cases hcond : pystrip (collectText pages) = []
      ∨ (words (collectText pages)).length < 50
  · cases images with
    | error m =>
      by_cases h2 : pystrip (collectText pages) = []
      · rw [ppdf_ocr_raise_empty pages m h2] at h
        have h' : PdfResult.err bothFailedMsg 0 = PdfResult.ok t n := h
        cases h'
      · rcases hcond with hx | hx
        · exact absurd hx h2
        · rw [ppdf_ocr_raise_kept pages m h2 hx] at h
          have h' : PdfResult.ok (pystrip (collectText pages)) pages.length
              = PdfResult.ok t n := h
          injection h' with _ hn
          exact hn.symm
    | ok imgs =>
      rw [ppdf_ocr_run pages imgs hcond] at h
      have h' : PdfResult.ok (pystrip (if pystrip (collectText imgs) = []
          then collectText pages else collectText imgs)) pages.length
          = PdfResult.ok t n := h
      injection h' with _ hn
      exact hn.symm
  · rw [ppdf_no_ocr pages images hcond] at h
    have h' : PdfResult.ok (pystrip (collectText pages)) pages.length
        = PdfResult.ok t n := h
    injection h' with _ hn
    exact hn.symm

/-- Witness for C5: a one-page PDF whose rasterization yields no images. -/
theorem pageCount_from_parse_witness :
    (1 : Nat) = [(Except.ok "a".toList : PieceResult)].length :=
  pageCount_from_parse [.ok "a".toList] (.ok []) "a".toList 1 (by decide)

/-- C6: an unparseable byte sequence yields a failure result carrying the
parser's (non-empty) error message and page count 0; OCR is never invoked. -/
theorem parse_failure_result (e : Str)
    (images : Except Str (List PieceResult)) (h : e ≠ []) :
    (process_pdf ⟨.error e, images⟩).result = .err e 0
    ∧ e ≠ []
    ∧ (process_pdf ⟨.error e, images⟩).ocrInvoked = false :=
  ⟨rfl, h, rfl⟩

/-- Witness for C6 at a concrete parser message. -/
theorem parse_failure_result_witness :
    (process_pdf ⟨.error "EOF marker not found".toList, .ok []⟩).result
      = .err "EOF marker not found".toList 0
    ∧ "EOF marker not found".toList ≠ []
    ∧ (process_pdf ⟨.error "EOF marker not found".toList, .ok []⟩).ocrInvoked
      = false :=
  parse_failure_result "EOF marker not found".toList (.ok []) (by decide)

/-- C7: per-page extraction failures and per-image OCR failures are never
fatal — replacing every raising piece by one contributing empty text changes
nothing observable, so the run depends only on the surviving contributions
and always continues over the remaining pages and images. -/
theorem piece_errors_not_fatal (pages imgs : List PieceResult) (m : Str) :
    process_pdf ⟨.ok (pages.map scrubPiece), .ok (imgs.map scrubPiece)⟩
      = process_pdf ⟨.ok pages, .ok imgs⟩
    ∧ process_pdf ⟨.ok (pages.map scrubPiece), .error m⟩
      = process_pdf ⟨.ok pages, .error m⟩ := by
  have h1 := collectText_scrub pages
  have h2 := collectText_scrub imgs
  constructor <;> simp [process_pdf, h1, h2]

/-- C8: invoked with a number of command-line arguments other than one, the
script prints the "No input provided" failure object and exits with code 1,
never calling the extractor. -/
theorem no_input_branch (args : List Str) (d : Except Str PdfEnv)
    (h : args.length ≠ 1) :
    main_entry args d = ⟨.noInput, 1, false⟩ := by
  simp [main_entry, h]

/-- Witness for C8 at zero arguments. -/
theorem no_input_branch_witness :
    main_entry [] (.error []) = ⟨.noInput, 1, false⟩ :=
  no_input_branch [] (.error []) (by decide)

/-- C9: when base64 decoding of the single argument raises with message m,
the script prints the failure object with error "Processing failed: m" and
exits with code 0, never calling the extractor. -/
theorem decode_failure_branch (a m : Str) :
    main_entry [a] (.error m)
      = ⟨.procFailed ("Processing failed: ".toList ++ m), 0, false⟩ := by
  simp [main_entry]

/-- C10: a PDF whose pages all extract to whitespace (or fail), whose OCR
runs without raising but whose images likewise yield only whitespace, ends in
a success result with empty text and the parsed page count. -/
theorem whitespace_only_success (pages imgs : List PieceResult)
    (h1 : pages.all pieceBlank) (h2 : imgs.all pieceBlank) :
    (process_pdf ⟨.ok pages, .ok imgs⟩).result = .ok [] pages.length := by
  have hp := collectText_nil_of_blank h1
  have hi := collectText_nil_of_blank h2
  have hcond : pystrip (collectText pages) = []
      ∨ (words (collectText pages)).length < 50 := Or.inl (by rw [hp]; rfl)
  rw [ppdf_ocr_run pages imgs hcond, hp, hi]
  rfl

/-- Witness for C10: one whitespace-only page and one failing page, with a
single whitespace-only OCR image. -/
theorem whitespace_only_success_witness :
    (process_pdf ⟨.ok [.ok " ".toList, .error "x".toList],
        .ok [.ok "\n\t".toList]⟩).result = .ok [] 2 :=
  whitespace_only_success [.ok " ".toList, .error "x".toList]
    [.ok "\n\t".toList] (by decide) (by decide)

end PdfProc
